import Mathlib

/-!
Shallow embedding of `src/data.py` (jpm92/backtester): the historical
data handlers that align per-symbol price series onto a shared calendar
and replay them bar by bar.

Modelling conventions:
  * timestamps are natural numbers (pandas DatetimeIndex is totally
    ordered; only order matters here);
  * prices are rationals (pandas float64 arithmetic, modelled exactly);
  * a missing value (NaN produced by `reindex`) is `Option.none`;
  * a pandas one-column frame / series is a `List (Time × Price)` or
    `List (Time × Option Price)` in index order;
  * the python dicts `symbol_data`, `symbol_dataframe`,
    `latest_symbol_data` are total functions from symbols, with keys
    always the symbol universe `symbol_list` (as the code maintains);
  * the consuming `iterrows()` iterator of `symbol_data[s]` is the list
    of rows not yet consumed (`symbol_iter`);
  * the event queue is modelled by the number of `MarketEvent`s put.
-/

namespace Backtester

abbrev Time := Nat
abbrev Price := ℚ
abbrev Sym := String

/-- A bar as built at data.py:119 / data.py:232:
`tuple([symbol, row[0], row[1][0]])` — symbol, timestamp and the first
column value of the row, which may be NaN after reindexing. -/
abbrev Bar := Sym × Time × Option Price

/-- The `DataSource` enum of data.py:12 (KRAKEN is never dispatched on in
`_open_convert_csv_files`, which only distinguishes NASDAQ from the rest). -/
inductive DataSource where
  | NASDAQ
  | YAHOO
deriving DecidableEq

/-- `parse_nasdaq_csv` (data.py:169-185): the CSV rows arrive in
reversed-chronological order, are reversed (`.iloc[::-1]`), the closing
price column is extracted, and rows with `Close > 0.0` are kept
(data.py:184-185). -/
def parse_nasdaq_csv (raw : List (Time × Price)) : List (Time × Price) :=
  raw.reverse.filter (fun r => 0 < r.2)

/-- `parse_yahoo_csv` (data.py:161-167): the CSV is read as-is, in
chronological order; note that NO positivity filter is applied on this
path. -/
def parse_yahoo_csv (raw : List (Time × Price)) : List (Time × Price) :=
  raw

/-- The per-symbol parse dispatch of `_open_convert_csv_files`
(data.py:94-97): NASDAQ goes through `parse_nasdaq_csv`, everything else
through `parse_yahoo_csv`. -/
def parseCSV : DataSource → List (Time × Price) → List (Time × Price)
  | DataSource.NASDAQ, raw => parse_nasdaq_csv raw
  | DataSource.YAHOO, raw => parse_yahoo_csv raw

/-- `QuandlDataHandler._get_nasdaq_data` (data.py:266-284): the fetched
frame (chronological) is reduced to its closing price column and rows
with `Close > 0.0` are kept. -/
def get_nasdaq_data (raw : List (Time × Price)) : List (Time × Price) :=
  raw.filter (fun r => 0 < r.2)

/-- The `combined_index` accumulation loop of `_open_convert_csv_files`
(data.py:92-102) and `_load_convert_quandl_data` (data.py:211-218),
embedded faithfully: the first symbol installs its index; for every later
symbol the code evaluates `combined_index.union(...)` and DISCARDS the
result (pandas `Index.union` is pure), so the accumulator is left
unchanged. -/
def combinedIndexLoop : Option (List Time) → List (List (Time × Price)) → Option (List Time)
  | ci, [] => ci
  | none, tbl :: rest => combinedIndexLoop (some (tbl.map Prod.fst)) rest
  | some ci, _tbl :: rest => combinedIndexLoop (some ci) rest

/-- The value a `reindex(..., method='pad')` lookup yields at timestamp
`t` for a (sorted) native series: the last native observation at or
before `t`, or NaN (`none`) if there is none. -/
def padLookup (native : List (Time × Price)) (t : Time) : Option Price :=
  ((native.filter (fun r => r.1 ≤ t)).getLast?).map Prod.snd

/-- `df.reindex(index=idx, method='pad')` (data.py:107-109, 223-226) for
a chronologically sorted one-column frame: one row per index entry,
forward-filled, NaN where no earlier native observation exists. -/
def reindexPad (native : List (Time × Price)) (idx : List Time) : List (Time × Option Price) :=
  idx.map (fun t => (t, padLookup native t))

/-- The union calendar as the spec words it (spec section 4.1): the
pointwise set union of every symbol native timestamp set. Declared for
comparison against the index the code actually builds. -/
def unionCalendarSpec (natives : List (Sym × List (Time × Price))) : Finset Time :=
  natives.foldl (fun acc p => acc ∪ (p.2.map Prod.fst).toFinset) ∅

/-- The mutable state of a `HistoricCSVDataHandler` / `QuandlDataHandler`
after construction (data.py:69-82, 191-208): the aligned frames, their
retained copies (`all_data`), the consuming row iterators, the reveal
buffers, the `continue_backtest` flag, and the count of `MarketEvent`s
put on the queue. -/
structure Handler where
  symbol_list : List Sym
  symbol_dataframe : Sym → List (Time × Option Price)
  all_data : Sym → List (Time × Option Price)
  symbol_iter : Sym → List (Time × Option Price)
  latest_symbol_data : Sym → List Bar
  continue_backtest : Bool
  events_count : Nat

/-- Dict access `natives[s]` for the association list of native series
(defaulting to the empty series off the key set, which the code never
touches). -/
def lookupNative (natives : List (Sym × List (Time × Price))) (s : Sym) :
    List (Time × Price) :=
  (natives.lookup s).getD []

/-- `HistoricCSVDataHandler.__init__` + `_open_convert_csv_files`
(data.py:56-111): parse every symbol, accumulate `combined_index` (first
symbol index only — the union result is discarded, data.py:102), reindex
every symbol onto it with forward-fill, copy into `all_data`, turn
`symbol_data` into row iterators, and create the empty reveal buffers. -/
def mkHistoricCSVHandler (source : DataSource)
    (natives : List (Sym × List (Time × Price))) : Handler :=
  let parsed := natives.map (fun p => (p.1, parseCSV source p.2))
  let ci := (combinedIndexLoop none (parsed.map Prod.snd)).getD []
  { symbol_list := natives.map Prod.fst
    symbol_dataframe := fun s => reindexPad (lookupNative parsed s) ci
    all_data := fun s => reindexPad (lookupNative parsed s) ci
    symbol_iter := fun s => reindexPad (lookupNative parsed s) ci
    latest_symbol_data := fun _ => []
    continue_backtest := true
    events_count := 0 }

/-- `QuandlDataHandler.__init__` + `_load_convert_quandl_data`
(data.py:189-228): identical to the CSV handler except that every symbol
is loaded through `_get_nasdaq_data` (chronological, positive filter).
The remote series for each symbol is the input. -/
def mkQuandlHandler (natives : List (Sym × List (Time × Price))) : Handler :=
  let parsed := natives.map (fun p => (p.1, get_nasdaq_data p.2))
  let ci := (combinedIndexLoop none (parsed.map Prod.snd)).getD []
  { symbol_list := natives.map Prod.fst
    symbol_dataframe := fun s => reindexPad (lookupNative parsed s) ci
    all_data := fun s => reindexPad (lookupNative parsed s) ci
    symbol_iter := fun s => reindexPad (lookupNative parsed s) ci
    latest_symbol_data := fun _ => []
    continue_backtest := true
    events_count := 0 }

/-- One loop body iteration of `update_latest_data` (data.py:136-143):
`next(self._get_new_data(symbol))` pulls one row from the shared
`iterrows` iterator; on `StopIteration` the flag is cleared and nothing
is appended; otherwise the bar `(symbol, row[0], row[1][0])` is appended
to the reveal buffer. -/
def updateSymbolStep (h : Handler) (s : Sym) : Handler :=
  match h.symbol_iter s with
  | [] => { h with continue_backtest := false }
  | r :: rest =>
    { h with
      symbol_iter := Function.update h.symbol_iter s rest
      latest_symbol_data := Function.update h.latest_symbol_data s
        (h.latest_symbol_data s ++ [(s, r.1, r.2)]) }

/-- `update_latest_data` (data.py:131-145, 240-250): one pull per symbol
in universe order, then exactly one `MarketEvent` put — unconditionally,
with no check of `continue_backtest`. -/
def update_latest_data (h : Handler) : Handler :=
  let h2 := h.symbol_list.foldl updateSymbolStep h
  { h2 with events_count := h2.events_count + 1 }

/-- `n` successive ticks of the engine. -/
def iterate : Nat → Handler → Handler
  | 0, h => h
  | n + 1, h => iterate n (update_latest_data h)

/-- Outcome of a python call: a normal return, or an uncaught exception
identified by its type name. -/
inductive PyResult (α : Type) where
  | ok : α → PyResult α
  | exn : String → PyResult α
deriving DecidableEq

/-- The python slice `lst[-N:]` for a natural `N`: for `N = 0` the WHOLE
list (since `lst[-0:]` is `lst[0:]`), otherwise the last
`min N lst.length` elements. -/
def pyLastSlice {α : Type} (l : List α) (N : Nat) : List α :=
  if N = 0 then l else l.drop (l.length - N)

/-- `get_latest_data` (data.py:121-129, 234-238): return
`latest_symbol_data[symbol][-N:]`; an unknown symbol raises `KeyError`,
which the handler catches and then evaluates
`print(...).format(symbol=symbol)` — `print` returns `None`, so an
`AttributeError` escapes to the caller. The dict keys of
`latest_symbol_data` are exactly `symbol_list`. -/
def get_latest_data (h : Handler) (s : Sym) (N : Nat) : PyResult (List Bar) :=
  if s ∈ h.symbol_list then PyResult.ok (pyLastSlice (h.latest_symbol_data s) N)
  else PyResult.exn "AttributeError"

/-- Forward fill (`fillna(method='pad')`) of a column, carrying the last
defined value; leading NaNs stay NaN. -/
def ffillFrom : Option Price → List (Option Price) → List (Option Price)
  | _, [] => []
  | prev, none :: rest => prev :: ffillFrom prev rest
  | _, some x :: rest => some x :: ffillFrom (some x) rest

/-- `Series.fillna(method='pad')` from a blank start. -/
def ffillCol (l : List (Option Price)) : List (Option Price) :=
  ffillFrom none l

/-- One cell of `Series.pct_change()`: current over previous minus one,
NaN whenever either operand is NaN. -/
def pctCell : Option Price × Option Price → Option Price
  | (some cur, some prev) => some (cur / prev - 1)
  | _ => none

/-- `Series.pct_change()` with its default `fill_method='pad'`: the
column is forward-filled, then each entry divided by its predecessor,
minus one; the first entry (and any leading NaN region) is NaN. -/
def pct_change (l : List (Option Price)) : List (Option Price) :=
  ((ffillCol l).zip (none :: ffillCol l)).map pctCell

/-- `Series.cumprod()` with its default `skipna=True`: NaNs stay NaN in
place and are skipped by the running product. -/
def cumprodAux : Price → List (Option Price) → List (Option Price)
  | _, [] => []
  | acc, none :: rest => none :: cumprodAux acc rest
  | acc, some x :: rest => some (acc * x) :: cumprodAux (acc * x) rest

/-- `Series.cumprod()` from product 1. -/
def cumprod (l : List (Option Price)) : List (Option Price) :=
  cumprodAux 1 l

/-- The per-symbol column of `create_baseline_dataframe`
(data.py:147-159, 252-264): `(1.0 + close.pct_change()).cumprod()`. -/
def baselineColumn (close : List (Option Price)) : List (Option Price) :=
  cumprod ((pct_change close).map (Option.map (fun x => 1 + x)))

/-- `create_baseline_dataframe` (data.py:147-159): one normalized column
per symbol, in universe order, over the shared aligned index. -/
def create_baseline_dataframe (h : Handler) : List (Sym × List (Option Price)) :=
  h.symbol_list.map (fun s =>
    (s, baselineColumn ((h.symbol_dataframe s).map Prod.snd)))

/-! ### Basic lemmas about one `update_latest_data` loop iteration -/

theorem updateSymbolStep_of_empty (h : Handler) (s : Sym)
    (he : h.symbol_iter s = []) :
    updateSymbolStep h s = { h with continue_backtest := false } := by
  simp [updateSymbolStep, he]

theorem updateSymbolStep_of_cons (h : Handler) (s : Sym)
    (r : Time × Option Price) (rest : List (Time × Option Price))
    (he : h.symbol_iter s = r :: rest) :
    updateSymbolStep h s =
      { h with
        symbol_iter := Function.update h.symbol_iter s rest
        latest_symbol_data := Function.update h.latest_symbol_data s
          (h.latest_symbol_data s ++ [(s, r.1, r.2)]) } := by
  simp [updateSymbolStep, he]

theorem step_symbol_list (h : Handler) (s : Sym) :
    (updateSymbolStep h s).symbol_list = h.symbol_list := by
  cases hc : h.symbol_iter s <;> simp [updateSymbolStep, hc]

theorem step_events (h : Handler) (s : Sym) :
    (updateSymbolStep h s).events_count = h.events_count := by
  cases hc : h.symbol_iter s <;> simp [updateSymbolStep, hc]

theorem step_flag_false (h : Handler) (s : Sym)
    (hf : h.continue_backtest = false) :
    (updateSymbolStep h s).continue_backtest = false := by
  cases hc : h.symbol_iter s <;> simp [updateSymbolStep, hc, hf]

theorem step_iter_other (h : Handler) (a s : Sym) (hsa : s ≠ a) :
    (updateSymbolStep h a).symbol_iter s = h.symbol_iter s := by
  cases hc : h.symbol_iter a <;>
    simp [updateSymbolStep, hc, Function.update_noteq hsa]

theorem step_buf_other (h : Handler) (a s : Sym) (hsa : s ≠ a) :
    (updateSymbolStep h a).latest_symbol_data s = h.latest_symbol_data s := by
  cases hc : h.symbol_iter a <;>
    simp [updateSymbolStep, hc, Function.update_noteq hsa]

/-! ### Lemmas about the fold over the symbol universe -/

theorem foldl_symbol_list (l : List Sym) (h : Handler) :
    (l.foldl updateSymbolStep h).symbol_list = h.symbol_list := by
  induction l generalizing h with
  | nil => rfl
  | cons a t ih => rw [List.foldl_cons, ih, step_symbol_list]

theorem foldl_events (l : List Sym) (h : Handler) :
    (l.foldl updateSymbolStep h).events_count = h.events_count := by
  induction l generalizing h with
  | nil => rfl
  | cons a t ih => rw [List.foldl_cons, ih, step_events]

theorem foldl_flag_false (l : List Sym) (h : Handler)
    (hf : h.continue_backtest = false) :
    (l.foldl updateSymbolStep h).continue_backtest = false := by
  induction l generalizing h with
  | nil => exact hf
  | cons a t ih => exact ih _ (step_flag_false h a hf)

theorem foldl_iter_not_mem (l : List Sym) (h : Handler) (s : Sym)
    (hs : s ∉ l) :
    (l.foldl updateSymbolStep h).symbol_iter s = h.symbol_iter s := by
  induction l generalizing h with
  | nil => rfl
  | cons a t ih =>
    have hsa : s ≠ a := fun he => hs (he ▸ List.mem_cons_self a t)
    have hst : s ∉ t := fun hm => hs (List.mem_cons_of_mem a hm)
    rw [List.foldl_cons, ih _ hst, step_iter_other h a s hsa]

theorem foldl_buf_not_mem (l : List Sym) (h : Handler) (s : Sym)
    (hs : s ∉ l) :
    (l.foldl updateSymbolStep h).latest_symbol_data s =
      h.latest_symbol_data s := by
  induction l generalizing h with
  | nil => rfl
  | cons a t ih =>
    have hsa : s ≠ a := fun he => hs (he ▸ List.mem_cons_self a t)
    have hst : s ∉ t := fun hm => hs (List.mem_cons_of_mem a hm)
    rw [List.foldl_cons, ih _ hst, step_buf_other h a s hsa]

theorem foldl_flag_exhausted (l : List Sym) (h : Handler) (s : Sym)
    (hs : s ∈ l) (he : h.symbol_iter s = []) :
    (l.foldl updateSymbolStep h).continue_backtest = false := by
  induction l generalizing h with
  | nil => cases hs
  | cons a t ih =>
    rw [List.foldl_cons]
    by_cases hsa : s = a
    · subst hsa
      rw [updateSymbolStep_of_empty h s he]
      exact foldl_flag_false t _ rfl
    · have hst : s ∈ t := by
        rcases List.mem_cons.1 hs with h1 | h1
        · exact absurd h1 hsa
        · exact h1
      exact ih _ hst (by rw [step_iter_other h a s hsa]; exact he)

theorem foldl_step_all_empty (l : List Sym) (h : Handler)
    (he : ∀ s ∈ l, h.symbol_iter s = []) :
    (l.foldl updateSymbolStep h).symbol_iter = h.symbol_iter ∧
    (l.foldl updateSymbolStep h).latest_symbol_data =
      h.latest_symbol_data := by
  induction l generalizing h with
  | nil => exact ⟨rfl, rfl⟩
  | cons a t ih =>
    rw [List.foldl_cons, updateSymbolStep_of_empty h a (he a (List.mem_cons_self a t))]
    exact ih _ (fun s hs => he s (List.mem_cons_of_mem a hs))

theorem foldl_step_pos (l : List Sym) (h : Handler) (hnd : l.Nodup)
    (hne : ∀ s ∈ l, h.symbol_iter s ≠ []) :
    (l.foldl updateSymbolStep h).continue_backtest = h.continue_backtest ∧
    (∀ s ∈ l, (l.foldl updateSymbolStep h).symbol_iter s =
      (h.symbol_iter s).tail) ∧
    (∀ s, s ∉ l → (l.foldl updateSymbolStep h).symbol_iter s =
      h.symbol_iter s) := by
  induction l generalizing h with
  | nil => exact ⟨rfl, by simp, fun s _ => rfl⟩
  | cons a t ih =>
    obtain ⟨r, rest, hra⟩ :=
      List.exists_cons_of_ne_nil (hne a (List.mem_cons_self a t))
    have hstep := updateSymbolStep_of_cons h a r rest hra
    have hanot : a ∉ t := (List.nodup_cons.1 hnd).1
    have hndt : t.Nodup := (List.nodup_cons.1 hnd).2
    have hiter1 : ∀ s, (updateSymbolStep h a).symbol_iter s =
        if s = a then rest else h.symbol_iter s := by
      intro s
      rw [hstep]
      by_cases hsa : s = a
      · subst hsa; simp [Function.update_same]
      · simp [Function.update_noteq hsa, hsa]
    have ht1 : ∀ s ∈ t, (updateSymbolStep h a).symbol_iter s ≠ [] := by
      intro s hs
      rw [hiter1 s, if_neg (fun he : s = a => hanot (he ▸ hs))]
      exact hne s (List.mem_cons_of_mem a hs)
    obtain ⟨hflag, hmem, hnotmem⟩ := ih (updateSymbolStep h a) hndt ht1
    have hflag1 : (updateSymbolStep h a).continue_backtest =
        h.continue_backtest := by rw [hstep]
    refine ⟨?_, ?_, ?_⟩
    · rw [List.foldl_cons, hflag, hflag1]
    · intro s hs
      rcases List.mem_cons.1 hs with h1 | h1
      · subst h1
        rw [List.foldl_cons, hnotmem s hanot, hiter1 s, if_pos rfl, hra]
        rfl
      · rw [List.foldl_cons, hmem s h1, hiter1 s,
          if_neg (fun he : s = a => hanot (he ▸ h1))]
    · intro s hs
      have hsa : s ≠ a := fun he => hs (he ▸ List.mem_cons_self a t)
      have hst : s ∉ t := fun hm => hs (List.mem_cons_of_mem a hm)
      rw [List.foldl_cons, hnotmem s hst, hiter1 s, if_neg hsa]

theorem foldl_buf_grow (l : List Sym) (h : Handler) (hnd : l.Nodup)
    (s : Sym) (hs : s ∈ l) :
    (l.foldl updateSymbolStep h).latest_symbol_data s =
        h.latest_symbol_data s ∨
      ∃ b, (l.foldl updateSymbolStep h).latest_symbol_data s =
        h.latest_symbol_data s ++ [b] := by
  induction l generalizing h with
  | nil => cases hs
  | cons a t ih =>
    have hanot : a ∉ t := (List.nodup_cons.1 hnd).1
    have hndt : t.Nodup := (List.nodup_cons.1 hnd).2
    by_cases hsa : s = a
    · subst hsa
      rw [List.foldl_cons]
      cases hc : h.symbol_iter s with
      | nil =>
        rw [updateSymbolStep_of_empty h s hc]
        left
        exact foldl_buf_not_mem t _ s hanot
      | cons r rest =>
        rw [updateSymbolStep_of_cons h s r rest hc]
        right
        refine ⟨(s, r.1, r.2), ?_⟩
        rw [foldl_buf_not_mem t _ s hanot]
        simp [Function.update_same]
    · have hst : s ∈ t := by
        rcases List.mem_cons.1 hs with h1 | h1
        · exact absurd h1 hsa
        · exact h1
      rw [List.foldl_cons]
      rcases ih (updateSymbolStep h a) hndt hst with h1 | ⟨b, h1⟩
      · left; rw [h1, step_buf_other h a s hsa]
      · right; exact ⟨b, by rw [h1, step_buf_other h a s hsa]⟩

theorem update_flag_false (h : Handler) (hf : h.continue_backtest = false) :
    (update_latest_data h).continue_backtest = false :=
  foldl_flag_false h.symbol_list h hf

theorem iterate_flag_false (n : Nat) (h : Handler)
    (hf : h.continue_backtest = false) :
    (iterate n h).continue_backtest = false := by
  induction n generalizing h with
  | zero => exact hf
  | succ n ih => exact ih _ (update_flag_false h hf)

/-! ### The reachable-state invariant of the engine

All aligned frames share `combined_index`, so every row iterator of a
freshly built handler has the same length; a tick pops one row from each
(or none from any), so the lengths stay equal, and the flag can only have
been cleared once that common length hit zero. -/

/-- Invariant of every handler the constructors and `update_latest_data`
can produce: distinct symbols, all row iterators of equal length, and a
cleared `continue_backtest` only when the iterators are exhausted. -/
def EngineInv (h : Handler) : Prop :=
  h.symbol_list.Nodup ∧
  ∃ k, (∀ s ∈ h.symbol_list, (h.symbol_iter s).length = k) ∧
    (h.continue_backtest = false → k = 0)

theorem engineInv_mkCSV (source : DataSource)
    (natives : List (Sym × List (Time × Price)))
    (hnd : (natives.map Prod.fst).Nodup) :
    EngineInv (mkHistoricCSVHandler source natives) := by
  refine ⟨hnd, (combinedIndexLoop none ((natives.map
    (fun p => (p.1, parseCSV source p.2))).map Prod.snd)).getD [] |>.length,
    fun s _ => ?_, fun hcon => by simp [mkHistoricCSVHandler] at hcon⟩
  simp [mkHistoricCSVHandler, reindexPad]

theorem engineInv_mkQuandl (natives : List (Sym × List (Time × Price)))
    (hnd : (natives.map Prod.fst).Nodup) :
    EngineInv (mkQuandlHandler natives) := by
  refine ⟨hnd, (combinedIndexLoop none ((natives.map
    (fun p => (p.1, get_nasdaq_data p.2))).map Prod.snd)).getD [] |>.length,
    fun s _ => ?_, fun hcon => by simp [mkQuandlHandler] at hcon⟩
  simp [mkQuandlHandler, reindexPad]

theorem engineInv_update (h : Handler) (hI : EngineInv h) :
    EngineInv (update_latest_data h) := by
  obtain ⟨hnd, k, hlen, hk0⟩ := hI
  have hsl : (update_latest_data h).symbol_list = h.symbol_list :=
    foldl_symbol_list h.symbol_list h
  have hiter : (update_latest_data h).symbol_iter =
      (h.symbol_list.foldl updateSymbolStep h).symbol_iter := rfl
  cases k with
  | zero =>
    have he : ∀ s ∈ h.symbol_list, h.symbol_iter s = [] := by
      intro s hs
      exact List.length_eq_zero.1 (hlen s hs)
    refine ⟨hsl ▸ hnd, 0, fun s hs => ?_, fun _ => rfl⟩
    rw [hiter, (foldl_step_all_empty h.symbol_list h he).1]
    exact hlen s (hsl ▸ hs)
  | succ m =>
    have hne : ∀ s ∈ h.symbol_list, h.symbol_iter s ≠ [] := by
      intro s hs hcon
      have := hlen s hs
      rw [hcon] at this
      simp at this
    obtain ⟨hflag, hmem, _⟩ := foldl_step_pos h.symbol_list h hnd hne
    have hflagT : h.continue_backtest = true := by
      cases hc : h.continue_backtest
      · exact absurd (hk0 hc) (by simp)
      · rfl
    refine ⟨hsl ▸ hnd, m, fun s hs => ?_, fun hcon => ?_⟩
    · rw [hiter, hmem s (hsl ▸ hs), List.length_tail, hlen s (hsl ▸ hs)]
      rfl
    · have : (update_latest_data h).continue_backtest = true := by
        show (h.symbol_list.foldl updateSymbolStep h).continue_backtest = true
        rw [hflag, hflagT]
      rw [this] at hcon
      cases hcon

theorem engineInv_iterate (n : Nat) (h : Handler) (hI : EngineInv h) :
    EngineInv (iterate n h) := by
  induction n generalizing h with
  | zero => exact hI
  | succ n ih => exact ih _ (engineInv_update h hI)

/-- On a handler satisfying the invariant whose flag is already cleared,
a further tick leaves every buffer unchanged but still counts one more
notification. -/
theorem update_of_flag_false_inv (h : Handler) (hI : EngineInv h)
    (hf : h.continue_backtest = false) :
    (∀ s, (update_latest_data h).latest_symbol_data s =
      h.latest_symbol_data s) ∧
    (update_latest_data h).events_count = h.events_count + 1 := by
  obtain ⟨_, k, hlen, hk0⟩ := hI
  have hk : k = 0 := hk0 hf
  have he : ∀ s ∈ h.symbol_list, h.symbol_iter s = [] := by
    intro s hs
    exact List.length_eq_zero.1 (hk ▸ hlen s hs)
  have hempty := foldl_step_all_empty h.symbol_list h he
  constructor
  · intro s
    show (h.symbol_list.foldl updateSymbolStep h).latest_symbol_data s =
      h.latest_symbol_data s
    rw [hempty.2]
  · show (h.symbol_list.foldl updateSymbolStep h).events_count + 1 =
      h.events_count + 1
    rw [foldl_events]

/-! ### Claim C2 -/

/-- C2: once any single symbol cursor raises exhaustion during an
advance (`update_latest_data`), `continue_backtest` becomes false, and
no subsequent sequence of advance operations ever sets it back to true
(the query operations `get_latest_data` and `create_baseline_dataframe`
are pure and return no handler at all). -/
theorem C2_lockstep_termination (h : Handler) :
    ((∃ s ∈ h.symbol_list, h.symbol_iter s = []) →
      (update_latest_data h).continue_backtest = false) ∧
    (h.continue_backtest = false →
      ∀ n, (iterate n h).continue_backtest = false) := by
  constructor
  · rintro ⟨s, hs, he⟩
    show (h.symbol_list.foldl updateSymbolStep h).continue_backtest = false
    exact foldl_flag_exhausted h.symbol_list h s hs he
  · intro hf n
    exact iterate_flag_false n h hf

/-- Witness for C2: a one-symbol handler whose series is empty is
exhausted on the first advance, and a handler whose one-bar series was
replayed and then exhausted (flag cleared after 2 ticks) keeps the flag
cleared over 3 further ticks. -/
theorem C2_lockstep_termination_witness :
    (update_latest_data
      (mkHistoricCSVHandler DataSource.YAHOO
        [("A", [])])).continue_backtest = false ∧
    (iterate 3 (iterate 2 (mkHistoricCSVHandler DataSource.YAHOO
      [("A", [(0, 1)])]))).continue_backtest = false :=
  ⟨(C2_lockstep_termination _).1 ⟨"A", by decide, by decide⟩,
   (C2_lockstep_termination _).2 (by decide) 3⟩

/-! ### Claim C3 -/

/-- C3 counterexample: on a one-symbol one-bar handler, after 2 ticks
`continue_backtest` is false, yet one more `update_latest_data` call
still puts a `MarketEvent` on the queue (data.py:145 runs
unconditionally) — a new notification IS observable, so the call is not
a fully benign no-op as claimed. -/
theorem C3_not_fully_noop_counterexample :
    (iterate 2 (mkHistoricCSVHandler DataSource.YAHOO
      [("A", [(0, 1)])])).continue_backtest = false ∧
    (update_latest_data (iterate 2 (mkHistoricCSVHandler DataSource.YAHOO
      [("A", [(0, 1)])]))).events_count =
      (iterate 2 (mkHistoricCSVHandler DataSource.YAHOO
        [("A", [(0, 1)])])).events_count + 1 ∧
    ¬ (update_latest_data (iterate 2 (mkHistoricCSVHandler DataSource.YAHOO
      [("A", [(0, 1)])]))).events_count =
      (iterate 2 (mkHistoricCSVHandler DataSource.YAHOO
        [("A", [(0, 1)])])).events_count := by
  decide

/-- A handler state actually producible by the code: some number of
ticks applied to a freshly constructed handler of either variant, over a
universe of distinct symbols. -/
def ReachableHandler (h : Handler) : Prop :=
  ∃ n,
    (∃ source natives, (natives.map Prod.fst).Nodup ∧
      h = iterate n (mkHistoricCSVHandler source natives)) ∨
    (∃ natives, (natives.map Prod.fst).Nodup ∧
      h = iterate n (mkQuandlHandler natives))

theorem engineInv_of_reachable (h : Handler) (hr : ReachableHandler h) :
    EngineInv h := by
  obtain ⟨n, hcase⟩ := hr
  rcases hcase with ⟨source, natives, hnd, rfl⟩ | ⟨natives, hnd, rfl⟩
  · exact engineInv_iterate n _ (engineInv_mkCSV source natives hnd)
  · exact engineInv_iterate n _ (engineInv_mkQuandl natives hnd)

/-- C3 (amended): whenever `continue_backtest` is false in a reachable
state of either handler variant, a further `update_latest_data` call
leaves every LatestBuffer unchanged, but it still posts exactly one
`MarketEvent` notification; the call is a no-op on the buffers and the
flag only, not on the event queue. -/
theorem C3_noop_on_buffers_not_queue (h : Handler)
    (hr : ReachableHandler h) (hf : h.continue_backtest = false) :
    (∀ s, (update_latest_data h).latest_symbol_data s =
      h.latest_symbol_data s) ∧
    (update_latest_data h).events_count = h.events_count + 1 :=
  update_of_flag_false_inv h (engineInv_of_reachable h hr) hf

/-- Witness for C3 (amended) on the concrete exhausted one-symbol
handler. -/
theorem C3_noop_on_buffers_not_queue_witness :
    (update_latest_data (iterate 2 (mkHistoricCSVHandler DataSource.YAHOO
        [("A", [(0, 1)])]))).latest_symbol_data "A" =
      (iterate 2 (mkHistoricCSVHandler DataSource.YAHOO
        [("A", [(0, 1)])])).latest_symbol_data "A" ∧
    (update_latest_data (iterate 2 (mkHistoricCSVHandler DataSource.YAHOO
        [("A", [(0, 1)])]))).events_count =
      (iterate 2 (mkHistoricCSVHandler DataSource.YAHOO
        [("A", [(0, 1)])])).events_count + 1 :=
  ⟨(C3_noop_on_buffers_not_queue _
      ⟨2, Or.inl ⟨DataSource.YAHOO, [("A", [(0, 1)])], by decide, rfl⟩⟩
      (by decide)).1 "A",
   (C3_noop_on_buffers_not_queue _
      ⟨2, Or.inl ⟨DataSource.YAHOO, [("A", [(0, 1)])], by decide, rfl⟩⟩
      (by decide)).2⟩

/-! ### Claim C4 -/

/-- C4: for every symbol of a duplicate-free universe and any single
`update_latest_data` call, the symbol LatestBuffer either stays exactly
as it was or gains exactly one bar at its end (so its length grows by 0
or 1, never shrinks, and the previously buffered bars are unchanged and
in order). -/
theorem C4_buffer_monotone_growth (h : Handler) (s : Sym)
    (hnd : h.symbol_list.Nodup) (hs : s ∈ h.symbol_list) :
    ((update_latest_data h).latest_symbol_data s = h.latest_symbol_data s ∨
      ∃ b, (update_latest_data h).latest_symbol_data s =
        h.latest_symbol_data s ++ [b]) ∧
    (((update_latest_data h).latest_symbol_data s).length =
        (h.latest_symbol_data s).length ∨
      ((update_latest_data h).latest_symbol_data s).length =
        (h.latest_symbol_data s).length + 1) := by
  have hg := foldl_buf_grow h.symbol_list h hnd s hs
  have hbuf : (update_latest_data h).latest_symbol_data =
      (h.symbol_list.foldl updateSymbolStep h).latest_symbol_data := rfl
  rw [hbuf]
  refine ⟨hg, ?_⟩
  rcases hg with h1 | ⟨b, h1⟩
  · left
    rw [h1]
  · right
    rw [h1]
    simp

/-- Witness for C4 on a concrete two-symbol handler after one tick. -/
theorem C4_buffer_monotone_growth_witness :
    ((update_latest_data (iterate 1 (mkHistoricCSVHandler DataSource.YAHOO
        [("A", [(0, 1)]), ("B", [(0, 2), (1, 3)])]))).latest_symbol_data "B" =
      (iterate 1 (mkHistoricCSVHandler DataSource.YAHOO
        [("A", [(0, 1)]), ("B", [(0, 2), (1, 3)])])).latest_symbol_data "B" ∨
      ∃ b, (update_latest_data (iterate 1 (mkHistoricCSVHandler
          DataSource.YAHOO
          [("A", [(0, 1)]), ("B", [(0, 2), (1, 3)])]))).latest_symbol_data
          "B" =
        (iterate 1 (mkHistoricCSVHandler DataSource.YAHOO
          [("A", [(0, 1)]),
            ("B", [(0, 2), (1, 3)])])).latest_symbol_data "B" ++ [b]) ∧
    (((update_latest_data (iterate 1 (mkHistoricCSVHandler DataSource.YAHOO
        [("A", [(0, 1)]),
          ("B", [(0, 2), (1, 3)])]))).latest_symbol_data "B").length =
        ((iterate 1 (mkHistoricCSVHandler DataSource.YAHOO
          [("A", [(0, 1)]),
            ("B", [(0, 2), (1, 3)])])).latest_symbol_data "B").length ∨
      ((update_latest_data (iterate 1 (mkHistoricCSVHandler DataSource.YAHOO
        [("A", [(0, 1)]),
          ("B", [(0, 2), (1, 3)])]))).latest_symbol_data "B").length =
        ((iterate 1 (mkHistoricCSVHandler DataSource.YAHOO
          [("A", [(0, 1)]),
            ("B", [(0, 2), (1, 3)])])).latest_symbol_data "B").length + 1) :=
  C4_buffer_monotone_growth _ "B" (by decide) (by decide)

/-! ### Claim C1 -/

/-- C1 (evaluation at the failing input): with universe A (native
timestamp 0) then B (native timestamps 0 and 1), every aligned frame is
indexed by A's native index `[0]` alone — identical across symbols, but
NOT the union calendar `{0, 1}`: the `combined_index.union(...)` result
at data.py:102 is discarded, so B's timestamp 1 never enters the shared
calendar. -/
theorem C1_shared_index_is_first_not_union :
    ((mkHistoricCSVHandler DataSource.YAHOO
        [("A", [(0, 1)]), ("B", [(0, 1), (1, 2)])]).symbol_dataframe
        "A").map Prod.fst = [0] ∧
    ((mkHistoricCSVHandler DataSource.YAHOO
        [("A", [(0, 1)]), ("B", [(0, 1), (1, 2)])]).symbol_dataframe
        "B").map Prod.fst = [0] ∧
    unionCalendarSpec [("A", [(0, 1)]), ("B", [(0, 1), (1, 2)])] =
      ({0, 1} : Finset Time) ∧
    ([0] : List Time).toFinset ≠ ({0, 1} : Finset Time) := by
  decide

/-! ### Claim C5 -/

/-- C5 counterexample: with A = 5 native daily bars and B = 3 native
bars on the same calendar, B is reindexed onto the 5-point shared
calendar BEFORE the cursors are built, so B's cursor holds 5 rows, not
3: after the 4th advance `continue_backtest` is still true and BOTH
buffers have length 4 — contradicting the claimed exhaustion of B and
the claimed stalling of A at length 3 on the 4th tick. -/
theorem C5_fourth_tick_does_not_exhaust :
    (iterate 4 (mkHistoricCSVHandler DataSource.YAHOO
      [("A", [(0, 10), (1, 11), (2, 12), (3, 13), (4, 14)]),
        ("B", [(0, 20), (1, 21), (2, 22)])])).continue_backtest = true ∧
    ((iterate 4 (mkHistoricCSVHandler DataSource.YAHOO
      [("A", [(0, 10), (1, 11), (2, 12), (3, 13), (4, 14)]),
        ("B", [(0, 20), (1, 21), (2, 22)])])).latest_symbol_data
      "A").length = 4 ∧
    ((iterate 4 (mkHistoricCSVHandler DataSource.YAHOO
      [("A", [(0, 10), (1, 11), (2, 12), (3, 13), (4, 14)]),
        ("B", [(0, 20), (1, 21), (2, 22)])])).latest_symbol_data
      "B").length = 4 := by
  decide

/-- C5 (amended): in the two-symbol A(5 bars)/B(3 bars) run the shared
calendar has 5 points and B's last two aligned points are forward-filled
from B's 3rd native value; after 3 advances the flag is true and both
buffers have length 3; but because B's cursor walks the ALIGNED 5-row
table, the 4th advance appends a (forward-filled) 4th bar to BOTH
buffers with the flag still true, and the replay only halts on the 6th
advance, when every cursor exhausts simultaneously, with both buffers
left at length 5. -/
theorem C5_replay_runs_five_ticks :
    ((mkHistoricCSVHandler DataSource.YAHOO
      [("A", [(0, 10), (1, 11), (2, 12), (3, 13), (4, 14)]),
        ("B", [(0, 20), (1, 21), (2, 22)])]).symbol_dataframe
      "A").map Prod.fst = [0, 1, 2, 3, 4] ∧
    ((mkHistoricCSVHandler DataSource.YAHOO
      [("A", [(0, 10), (1, 11), (2, 12), (3, 13), (4, 14)]),
        ("B", [(0, 20), (1, 21), (2, 22)])]).symbol_dataframe
      "B").map Prod.snd =
      [some 20, some 21, some 22, some 22, some 22] ∧
    (iterate 3 (mkHistoricCSVHandler DataSource.YAHOO
      [("A", [(0, 10), (1, 11), (2, 12), (3, 13), (4, 14)]),
        ("B", [(0, 20), (1, 21), (2, 22)])])).continue_backtest = true ∧
    ((iterate 3 (mkHistoricCSVHandler DataSource.YAHOO
      [("A", [(0, 10), (1, 11), (2, 12), (3, 13), (4, 14)]),
        ("B", [(0, 20), (1, 21), (2, 22)])])).latest_symbol_data
      "A").length = 3 ∧
    ((iterate 3 (mkHistoricCSVHandler DataSource.YAHOO
      [("A", [(0, 10), (1, 11), (2, 12), (3, 13), (4, 14)]),
        ("B", [(0, 20), (1, 21), (2, 22)])])).latest_symbol_data
      "B").length = 3 ∧
    (iterate 4 (mkHistoricCSVHandler DataSource.YAHOO
      [("A", [(0, 10), (1, 11), (2, 12), (3, 13), (4, 14)]),
        ("B", [(0, 20), (1, 21), (2, 22)])])).latest_symbol_data "B" =
      [("B", 0, some 20), ("B", 1, some 21), ("B", 2, some 22),
        ("B", 3, some 22)] ∧
    (iterate 5 (mkHistoricCSVHandler DataSource.YAHOO
      [("A", [(0, 10), (1, 11), (2, 12), (3, 13), (4, 14)]),
        ("B", [(0, 20), (1, 21), (2, 22)])])).continue_backtest = true ∧
    (iterate 6 (mkHistoricCSVHandler DataSource.YAHOO
      [("A", [(0, 10), (1, 11), (2, 12), (3, 13), (4, 14)]),
        ("B", [(0, 20), (1, 21), (2, 22)])])).continue_backtest = false ∧
    ((iterate 6 (mkHistoricCSVHandler DataSource.YAHOO
      [("A", [(0, 10), (1, 11), (2, 12), (3, 13), (4, 14)]),
        ("B", [(0, 20), (1, 21), (2, 22)])])).latest_symbol_data
      "A").length = 5 ∧
    ((iterate 6 (mkHistoricCSVHandler DataSource.YAHOO
      [("A", [(0, 10), (1, 11), (2, 12), (3, 13), (4, 14)]),
        ("B", [(0, 20), (1, 21), (2, 22)])])).latest_symbol_data
      "B").length = 5 := by
  decide

/-! ### Claim C6 -/

/-- C6 (evaluation at the failing input): with universe A (native
timestamp 0) then B (native timestamp 1 only), the union calendar is
`{0, 1}`, B has a native observation at the union timestamp 1, yet B's
aligned frame is `[(0, none)]`: the row at timestamp 1 is missing
entirely (the discarded-union slip of data.py:102), while the row at
timestamp 0, where B has NO native observation at or before, is PRESENT
with a NaN value instead of being absent/dropped. -/
theorem C6_pad_keeps_nan_and_misses_union_rows :
    (mkHistoricCSVHandler DataSource.YAHOO
      [("A", [(0, 1)]), ("B", [(1, 2)])]).symbol_dataframe "B" =
      [(0, none)] ∧
    (1 : Time) ∈ unionCalendarSpec [("A", [(0, 1)]), ("B", [(1, 2)])] ∧
    padLookup [(1, 2)] 1 = some 2 ∧
    padLookup [(1, 2)] 0 = none := by
  decide

/-! ### Claim C7 -/

/-- All prices still to be revealed and all prices already revealed are
positive wherever they are defined. -/
def PricesPos (h : Handler) : Prop :=
  (∀ s, ∀ r ∈ h.symbol_iter s, ∀ p, r.2 = some p → 0 < p) ∧
  (∀ s, ∀ b ∈ h.latest_symbol_data s, ∀ p, b.2.2 = some p → 0 < p)

theorem step_pricesPos (h : Handler) (a : Sym) (hp : PricesPos h) :
    PricesPos (updateSymbolStep h a) := by
  obtain ⟨hit, hbuf⟩ := hp
  cases hc : h.symbol_iter a with
  | nil =>
    rw [updateSymbolStep_of_empty h a hc]
    exact ⟨hit, hbuf⟩
  | cons r rest =>
    rw [updateSymbolStep_of_cons h a r rest hc]
    constructor
    · intro s r2 hr2 p hp2
      by_cases hsa : s = a
      · subst hsa
        simp only [Function.update_same] at hr2
        exact hit s r2 (by rw [hc]; exact List.mem_cons_of_mem r hr2) p hp2
      · simp only [Function.update_noteq hsa] at hr2
        exact hit s r2 hr2 p hp2
    · intro s b hb p hp2
      by_cases hsa : s = a
      · subst hsa
        simp only [Function.update_same] at hb
        rcases List.mem_append.1 hb with h1 | h1
        · exact hbuf s b h1 p hp2
        · have hb2 : b = (s, r.1, r.2) := by simpa using h1
          subst hb2
          exact hit s r (by rw [hc]; exact List.mem_cons_self r rest) p hp2
      · simp only [Function.update_noteq hsa] at hb
        exact hbuf s b hb p hp2

theorem foldl_pricesPos (l : List Sym) (h : Handler) (hp : PricesPos h) :
    PricesPos (l.foldl updateSymbolStep h) := by
  induction l generalizing h with
  | nil => exact hp
  | cons a t ih => exact ih _ (step_pricesPos h a hp)

theorem padLookup_pos (native : List (Time × Price))
    (hpos : ∀ r ∈ native, 0 < r.2) (t : Time) (p : Price)
    (hp : padLookup native t = some p) : 0 < p := by
  unfold padLookup at hp
  rcases Option.map_eq_some'.1 hp with ⟨r, hr, hrp⟩
  have hmem : r ∈ native.filter (fun r => r.1 ≤ t) := by
    rcases List.mem_getLast?_eq_getLast hr with ⟨hne, hEq⟩
    exact hEq ▸ List.getLast_mem hne
  exact hrp ▸ hpos r (List.mem_of_mem_filter hmem)

/-- C7 counterexample: the YAHOO column layout of the local-file loader
applies NO positivity filter (data.py:161-167, unlike the NASDAQ layout
at data.py:184-185), so a native row with price -1 survives into the
aligned SymbolTable and is appended to the LatestBuffer as a bar with
non-positive price. -/
theorem C7_yahoo_layout_keeps_nonpositive :
    ((0 : Time), some (-1 : Price)) ∈
      (mkHistoricCSVHandler DataSource.YAHOO
        [("A", [(0, -1)])]).symbol_dataframe "A" ∧
    (-1 : Price) ≤ 0 ∧
    (iterate 1 (mkHistoricCSVHandler DataSource.YAHOO
      [("A", [(0, -1)])])).latest_symbol_data "A" =
      [("A", 0, some (-1))] := by
  decide

/-- C7 (amended): the NASDAQ column layout of the local-file loader and
the remote-provider loader do exclude every row with price ≤ 0 at load
time, every defined value of a frame aligned from such a filtered series
is positive, and positivity of all iterator rows and buffered bars is
preserved by every advance — but the YAHOO column layout applies no such
filter (see the counterexample). -/
theorem C7_filtered_loaders_keep_prices_positive :
    (∀ raw : List (Time × Price), ∀ r ∈ parse_nasdaq_csv raw, 0 < r.2) ∧
    (∀ raw : List (Time × Price), ∀ r ∈ get_nasdaq_data raw, 0 < r.2) ∧
    (∀ raw : List (Time × Price), ∀ idx : List Time,
      ∀ r ∈ reindexPad (parse_nasdaq_csv raw) idx,
        ∀ p, r.2 = some p → 0 < p) ∧
    (∀ h : Handler, PricesPos h → PricesPos (update_latest_data h)) := by
  refine ⟨?_, ?_, ?_, ?_⟩
  · intro raw r hr
    rw [parse_nasdaq_csv, List.mem_filter] at hr
    exact of_decide_eq_true hr.2
  · intro raw r hr
    rw [get_nasdaq_data, List.mem_filter] at hr
    exact of_decide_eq_true hr.2
  · intro raw idx r hr p hp
    rw [reindexPad, List.mem_map] at hr
    obtain ⟨t, _, rfl⟩ := hr
    refine padLookup_pos (parse_nasdaq_csv raw) ?_ t p hp
    intro r2 hr2
    rw [parse_nasdaq_csv, List.mem_filter] at hr2
    exact of_decide_eq_true hr2.2
  · intro h hp
    exact foldl_pricesPos h.symbol_list h hp

/-- Witness for C7 (amended): concrete rows through the NASDAQ parse,
the remote parse, and an aligned frame. -/
theorem C7_filtered_loaders_witness :
    (0 : Price) < 2 ∧ (0 : Price) < 3 ∧ (0 : Price) < 5 :=
  ⟨C7_filtered_loaders_keep_prices_positive.1 [(0, 2)] (0, 2) (by decide),
   C7_filtered_loaders_keep_prices_positive.2.1 [(0, 3)] (0, 3) (by decide),
   C7_filtered_loaders_keep_prices_positive.2.2.1 [(1, 5)] [1]
     (1, some 5) (by decide) 5 rfl⟩

/-! ### Claim C8 -/

/-- C8 counterexample: `latest_symbol_data[symbol][-N:]` with `N = 0` is
the python slice `[-0:] = [0:]`, the WHOLE buffer: on a buffer of length
2 the call returns 2 bars, not `min 0 2 = 0` bars as the claim requires
for every `N`. -/
theorem C8_zero_window_returns_whole_buffer :
    get_latest_data (iterate 2 (mkHistoricCSVHandler DataSource.YAHOO
      [("A", [(0, 1), (1, 2)])])) "A" 0 =
      PyResult.ok [("A", 0, some 1), ("A", 1, some 2)] ∧
    ((iterate 2 (mkHistoricCSVHandler DataSource.YAHOO
      [("A", [(0, 1), (1, 2)])])).latest_symbol_data "A").length = 2 ∧
    min 0 2 = 0 ∧ (2 : Nat) ≠ 0 := by
  decide

/-- C8 (amended): for every symbol of the universe and every `N ≥ 1`,
`get_latest_data` returns exactly the most recent
`min N (buffer length)` bars — a suffix of the LatestBuffer, hence in
chronological order with the oldest of the window first — and, being a
pure read in this embedding, modifies no engine state; for `N = 0` the
python slice returns the whole buffer instead (see the
counterexample). -/
theorem C8_get_latest_recent_window (h : Handler) (s : Sym) (N : Nat)
    (hs : s ∈ h.symbol_list) (hN : 1 ≤ N) :
    ∃ l, get_latest_data h s N = PyResult.ok l ∧
      l.length = min N (h.latest_symbol_data s).length ∧
      ∃ pre, h.latest_symbol_data s = pre ++ l := by
  refine ⟨(h.latest_symbol_data s).drop
    ((h.latest_symbol_data s).length - N), ?_, ?_, ?_⟩
  · rw [get_latest_data, if_pos hs]
    unfold pyLastSlice
    rw [if_neg (by omega)]
  · rw [List.length_drop]
    omega
  · exact ⟨(h.latest_symbol_data s).take ((h.latest_symbol_data s).length - N),
      (List.take_append_drop _ _).symm⟩

/-- Witness for C8 (amended): a 2-bar buffer queried with `N = 10`
yields both bars, oldest first. -/
theorem C8_get_latest_recent_window_witness :
    ∃ l, get_latest_data (iterate 2 (mkHistoricCSVHandler DataSource.YAHOO
        [("A", [(0, 1), (1, 2)])])) "A" 10 = PyResult.ok l ∧
      l.length = min 10 ((iterate 2 (mkHistoricCSVHandler DataSource.YAHOO
        [("A", [(0, 1), (1, 2)])])).latest_symbol_data "A").length ∧
      ∃ pre, (iterate 2 (mkHistoricCSVHandler DataSource.YAHOO
        [("A", [(0, 1), (1, 2)])])).latest_symbol_data "A" = pre ++ l :=
  C8_get_latest_recent_window _ "A" 10 (by decide) (by decide)

/-! ### Claim C9 -/

/-- C9: querying a symbol outside the universe raises an error to the
caller (the `KeyError` handler at data.py:128-129 evaluates
`print(...).format(...)`, and `.format` on the `None` that `print`
returns raises an uncaught `AttributeError`), while querying a valid
symbol whose buffer is still empty returns the empty list normally —
two distinguishable outcomes, and the unknown-symbol path is reachable
only for unknown symbols. -/
theorem C9_unknown_symbol_distinct_from_empty (h : Handler) (s t : Sym)
    (N M : Nat) (hs : s ∉ h.symbol_list) (ht : t ∈ h.symbol_list)
    (hempty : h.latest_symbol_data t = []) :
    get_latest_data h s N = PyResult.exn "AttributeError" ∧
    get_latest_data h t M = PyResult.ok [] ∧
    (PyResult.exn "AttributeError" : PyResult (List Bar)) ≠
      PyResult.ok [] := by
  refine ⟨?_, ?_, by decide⟩
  · rw [get_latest_data, if_neg hs]
  · rw [get_latest_data, if_pos ht, hempty]
    unfold pyLastSlice
    by_cases hM : M = 0 <;> simp [hM]

/-- Witness for C9 on a freshly constructed one-symbol handler. -/
theorem C9_unknown_symbol_distinct_witness :
    get_latest_data (mkHistoricCSVHandler DataSource.YAHOO
      [("A", [(0, 1)])]) "ZZZ" 1 = PyResult.exn "AttributeError" ∧
    get_latest_data (mkHistoricCSVHandler DataSource.YAHOO
      [("A", [(0, 1)])]) "A" 1 = PyResult.ok [] ∧
    (PyResult.exn "AttributeError" : PyResult (List Bar)) ≠
      PyResult.ok [] :=
  C9_unknown_symbol_distinct_from_empty _ "ZZZ" "A" 1 1
    (by decide) (by decide) (by decide)

/-! ### Claim C10 -/

/-- Successive-quotient column: entry `i` is `q_i / q_{i-1}` (with the
given seed as predecessor of the first entry). This is what
`1 + pct_change` amounts to on a fully defined column. -/
def stepRatios : Price → List Price → List (Option Price)
  | _, [] => []
  | prev, q :: qs => some (q / prev) :: stepRatios q qs

theorem ffillFrom_map_some (prev : Option Price) (l : List Price) :
    ffillFrom prev (l.map some) = l.map some := by
  induction l generalizing prev with
  | nil => rfl
  | cons x xs ih => simp [ffillFrom, ih]

theorem zip_pctCell_one_add (p0 : Price) (ps : List Price) :
    (((ps.map some).zip ((p0 :: ps).map some)).map pctCell).map
      (Option.map (fun x => 1 + x)) = stepRatios p0 ps := by
  induction ps generalizing p0 with
  | nil => rfl
  | cons q qs ih =>
    simp only [List.map_cons, List.zip_cons_cons, stepRatios, pctCell,
      Option.map_some']
    have ih2 := ih q
    simp only [List.map_cons] at ih2
    rw [ih2]
    congr 2
    ring

theorem cumprodAux_stepRatios (a p0 : Price) (ps : List Price)
    (h0 : p0 ≠ 0) (hps : ∀ q ∈ ps, q ≠ 0) :
    cumprodAux a (stepRatios p0 ps) =
      ps.map (fun q => some (a * q / p0)) := by
  induction ps generalizing a p0 with
  | nil => rfl
  | cons q qs ih =>
    have hq : q ≠ 0 := hps q (List.mem_cons_self q qs)
    simp only [stepRatios, cumprodAux, List.map_cons]
    rw [ih (a * (q / p0)) q hq (fun r hr => hps r (List.mem_cons_of_mem q hr))]
    congr 1
    · congr 1
      ring
    · refine List.map_congr_left ?_
      intro r _
      congr 1
      field_simp
      ring

theorem baselineColumn_all_some (p0 : Price) (ps : List Price)
    (h0 : p0 ≠ 0) (hps : ∀ q ∈ ps, q ≠ 0) :
    baselineColumn ((p0 :: ps).map some) =
      none :: ps.map (fun q => some (q / p0)) := by
  unfold baselineColumn pct_change
  rw [show ffillCol ((p0 :: ps).map some) = (p0 :: ps).map some from
    ffillFrom_map_some none (p0 :: ps)]
  rw [show ((p0 :: ps).map some).zip (none :: (p0 :: ps).map some) =
      ((some p0 : Option Price), (none : Option Price)) ::
        (ps.map some).zip ((p0 :: ps).map some) by
    rw [List.map_cons, List.zip_cons_cons]]
  rw [List.map_cons, List.map_cons]
  rw [show pctCell (some p0, none) = none from rfl, Option.map_none']
  rw [zip_pctCell_one_add p0 ps]
  unfold cumprod
  rw [show cumprodAux 1 (none :: stepRatios p0 ps) =
      none :: cumprodAux 1 (stepRatios p0 ps) from rfl]
  rw [cumprodAux_stepRatios 1 p0 ps h0 hps]
  simp only [one_mul]

/-- C10 counterexample: for a symbol with closing prices 1 then 2, the
baseline column is `[NaN, 2.0]`: `pct_change` leaves the first row NaN,
`(1 + ...).cumprod()` keeps it NaN (skipna), so the FIRST DEFINED row is
`p1 / p0 = 2.0`, not 1.0 — the cumulative product never passes through
an explicit 1.0 base. -/
theorem C10_first_defined_row_not_one :
    create_baseline_dataframe (mkHistoricCSVHandler DataSource.YAHOO
      [("A", [(0, 1), (1, 2)])]) = [("A", [none, some 2])] ∧
    some (2 : Price) ≠ some (1 : Price) := by
  have hcol : ((mkHistoricCSVHandler DataSource.YAHOO
      [("A", [(0, 1), (1, 2)])]).symbol_dataframe "A").map Prod.snd =
      ((1 : Price) :: [2]).map some := by decide
  have hb := baselineColumn_all_some 1 [2] (by norm_num) (by norm_num)
  constructor
  · unfold create_baseline_dataframe
    rw [show (mkHistoricCSVHandler DataSource.YAHOO
      [("A", [(0, 1), (1, 2)])]).symbol_list = ["A"] from rfl]
    rw [List.map_cons, List.map_nil, hcol, hb]
    norm_num
  · intro hcon
    have : (2 : Price) = 1 := Option.some.inj hcon
    norm_num at this

/-- C10 (amended): for every symbol whose aligned closing column is
fully defined with positive prices `p0, p1, p2, ...`, the baseline
column of `create_baseline_dataframe` has NaN at its first row and
value `p_i / p0` at every later row `i` (the running product of
`1 + pct_change` telescopes to the price relative to the FIRST price);
in particular the first defined row equals `p1 / p0`, which is 1.0 only
when the price did not move. -/
theorem C10_baseline_rows_are_price_relatives (h : Handler) (s : Sym)
    (p0 : Price) (ps : List Price) (hs : s ∈ h.symbol_list)
    (hcol : (h.symbol_dataframe s).map Prod.snd = (p0 :: ps).map some)
    (hpos : ∀ q ∈ p0 :: ps, 0 < q) :
    (s, none :: ps.map (fun q => some (q / p0))) ∈
      create_baseline_dataframe h := by
  have h0 : p0 ≠ 0 := (hpos p0 (List.mem_cons_self p0 ps)).ne'
  have hps : ∀ q ∈ ps, q ≠ 0 :=
    fun q hq => (hpos q (List.mem_cons_of_mem p0 hq)).ne'
  have hmem : (s, baselineColumn ((h.symbol_dataframe s).map Prod.snd)) ∈
      create_baseline_dataframe h :=
    List.mem_map_of_mem
      (fun s => (s, baselineColumn ((h.symbol_dataframe s).map Prod.snd))) hs
  rw [hcol, baselineColumn_all_some p0 ps h0 hps] at hmem
  exact hmem

/-- Witness for C10 (amended): prices 1, 2, 4 give the baseline column
`[NaN, 2/1, 4/1]`. -/
theorem C10_baseline_price_relatives_witness :
    ("A", (none : Option Price) ::
        [(2 : Price), 4].map (fun q => some (q / 1))) ∈
      create_baseline_dataframe (mkHistoricCSVHandler DataSource.YAHOO
        [("A", [(0, 1), (1, 2), (2, 4)])]) :=
  C10_baseline_rows_are_price_relatives _ "A" 1 [2, 4]
    (by decide) (by decide) (by decide)

end Backtester
